import Mathlib

/-!
Verification of the Quadtree bitmap processor (src/quadtree.h, src/quadtree.cpp).

The C++ code is shallowly embedded: a QuadtreeNode pointer (QuadtreeNode*) is
modelled by the inductive type QuadtreeNode, whose constructor null models the
NULL pointer and whose constructor mk models a heap node with its element and
its four (possibly NULL) child pointers.  All machine arithmetic is modelled
on Nat/Int: int becomes Int (no overflow occurs in any reachable computation:
coordinates, resolutions and tolerances stay far below 2^31), and uint8_t
channel values become Nat with the value stored modulo 256 exactly where the
C++ converts an int back to uint8_t.

The PNG / RGBAPixel collaborator classes (png.h) are not part of src/; per the
spec they are an external pixel container exposing width/height and
coordinate-indexed read/write access, and are modelled from the spec below.

Functions that the C++ only ever calls on non-NULL pointers (every caller
guards with a root == NULL test or the 0-or-4-children invariant) would
dereference NULL on the null constructor; the embedding gives those cases an
explicit harmless result, marked "unreachable" in comments, and the theorems
about them carry the corresponding well-formedness hypotheses.
-/

/-- Modelled from the spec: a color with four independent 8-bit unsigned
channels (png.h is not under src/).  Channel values are Nat; every value
produced by the embedded code is < 256. -/
structure RGBAPixel where
  red : Nat
  green : Nat
  blue : Nat
  alpha : Nat
deriving DecidableEq, Repr

/-- Modelled from the spec: the color produced by the default RGBAPixel
constructor (png.h is not under src/).  The spec only requires "a defined
neutral/default color"; no claim observes the concrete channel values,
only that the same fixed color is returned. -/
def defaultPixel : RGBAPixel := ⟨255, 255, 255, 255⟩

/-- Modelled from the spec: the external square pixel container (png.h is not
under src/), exposing width, height and coordinate-indexed color read access.
Write access is modelled functionally by setPixelAt below. -/
structure PNG where
  width : Int
  height : Int
  pixelAt : Int → Int → RGBAPixel

/-- Modelled from the spec: the default-constructed PNG, "a defined
empty/zero-sized grid". -/
def defaultPNG : PNG := ⟨0, 0, fun _ _ => defaultPixel⟩

/-- Modelled from the spec: coordinate-indexed write access of the pixel
container; the functional rendering of an assignment through operator(). -/
def setPixelAt (img : PNG) (x y : Int) (p : RGBAPixel) : PNG :=
  ⟨img.width, img.height, fun a b => if a = x ∧ b = y then p else img.pixelAt a b⟩

/-- A QuadtreeNode pointer: either NULL or a node holding an RGBAPixel element
and four child pointers (quadtree.h, class QuadtreeNode). -/
inductive QuadtreeNode : Type where
  | null : QuadtreeNode
  | mk (element : RGBAPixel) (nwChild neChild swChild seChild : QuadtreeNode) : QuadtreeNode
deriving DecidableEq, Repr

namespace QuadtreeNode

/-- Pointer comparison against NULL. -/
def isNull : QuadtreeNode → Bool
  | .null => true
  | .mk _ _ _ _ _ => false

/-- Dereference node->element.  On null: unreachable in the embedded code
(every dereference site is guarded); yields the default color. -/
def element : QuadtreeNode → RGBAPixel
  | .null => defaultPixel
  | .mk e _ _ _ _ => e

end QuadtreeNode

/-- The Quadtree object: a root pointer (possibly NULL) and the resolution res
of the underlying bitmap (quadtree.h, class Quadtree). -/
structure Quadtree where
  root : QuadtreeNode
  res : Int
deriving DecidableEq, Repr

/-- quadtree.cpp line 15: const int MIN_TOLERANCE = 0. -/
def MIN_TOLERANCE : Int := 0

/-- quadtree.cpp line 16: const int MAX_TOLERANCE = 3 * (255 * 255). -/
def MAX_TOLERANCE : Int := 3 * (255 * 255)

namespace Quadtree

/-- Quadtree::Quadtree(): the empty tree, root = NULL, res = 0. -/
def emptyTree : Quadtree := ⟨.null, 0⟩

/-- Quadtree::hasChildren: returns nwChild != NULL.  On null: unreachable
(C++ would dereference NULL). -/
def hasChildren : QuadtreeNode → Bool
  | .null => false
  | .mk _ nwChild _ _ _ => !nwChild.isNull

/-- Quadtree::getAvg: (n1 + n2 + n3 + n4) / 4 on uint8_t values; the ints are
exact and the store back into uint8_t is a reduction modulo 256 (an identity
for channel values < 256). -/
def getAvg (n1 n2 n3 n4 : Nat) : Nat := ((n1 + n2 + n3 + n4) / 4) % 256

/-- Quadtree::getAvgPixelOfChildren, rendered functionally: the C++ reads the
element of each of node's four children and writes the channel-wise average
into node->element; here the four children are passed and the averaged pixel
is returned. -/
def getAvgPixelOfChildren (nw ne sw se : QuadtreeNode) : RGBAPixel :=
  ⟨getAvg nw.element.red ne.element.red sw.element.red se.element.red,
   getAvg nw.element.green ne.element.green sw.element.green se.element.green,
   getAvg nw.element.blue ne.element.blue sw.element.blue se.element.blue,
   getAvg nw.element.alpha ne.element.alpha sw.element.alpha se.element.alpha⟩

/-- Quadtree::buildTree private helper (quadtree.cpp lines 129-142), with an
explicit recursion budget: the C++ recursion halves resolution until it
reaches 1 and does not terminate for resolution <= 0 (a caller contract
violation); the budget resolution.toNat, supplied by the public buildTree
below, strictly exceeds the recursion depth log2(resolution) for every valid
resolution 2^k, so the budget-exhausted branch is never reached on inputs
satisfying the documented precondition.  The C++ test resolution == 1 is
rendered as resolution <= 1 so that the function is total; the two differ
only for resolution <= 0, where the C++ recursion does not return at all. -/
def buildTreeNode (source : PNG) : Nat → Int → Int → Int → QuadtreeNode
  | 0, _, x, y => .mk (source.pixelAt x y) .null .null .null .null
  | fuel + 1, resolution, x, y =>
    if resolution ≤ 1 then
      .mk (source.pixelAt x y) .null .null .null .null
    else
      let childResolution := resolution / 2
      let nw := buildTreeNode source fuel childResolution x y
      let ne := buildTreeNode source fuel childResolution (x + childResolution) y
      let sw := buildTreeNode source fuel childResolution x (y + childResolution)
      let se := buildTreeNode source fuel childResolution (x + childResolution) (y + childResolution)
      .mk (getAvgPixelOfChildren nw ne sw se) nw ne sw se

/-- Quadtree::buildTree public interface (quadtree.cpp lines 113-118): deletes
the previous tree (value semantics: the result does not depend on the prior
state), sets res, and builds from the upper-left corner. -/
def buildTree (source : PNG) (resolution : Int) : Quadtree :=
  ⟨buildTreeNode source resolution.toNat resolution 0 0, resolution⟩

/-- Quadtree::outOfBound: x or y outside the bounds of the underlying bitmap. -/
def outOfBound (q : Quadtree) (x y : Int) : Bool :=
  decide (x < 0) || decide (y < 0) || decide (x ≥ q.res) || decide (y ≥ q.res)

/-- Quadtree::getPixel private helper (quadtree.cpp lines 177-191): descend
while the node has children, choosing the quadrant by comparing x and y with
half the current resolution.  On null: unreachable (C++ would dereference
NULL). -/
def getPixelNode : Int → Int → QuadtreeNode → Int → RGBAPixel
  | _, _, .null, _ => defaultPixel
  | x, y, node@(.mk element nwChild neChild swChild seChild), resolution =>
    if !hasChildren node then element
    else
      let r := resolution / 2
      if x < r ∧ y < r then getPixelNode x y nwChild r
      else if x < r ∧ y ≥ r then getPixelNode x y swChild r
      else if x ≥ r ∧ y < r then getPixelNode x y neChild r
      else getPixelNode x y seChild r

/-- Quadtree::getPixel public interface (quadtree.cpp lines 170-174). -/
def getPixel (q : Quadtree) (x y : Int) : RGBAPixel :=
  if q.outOfBound x y || q.root.isNull then defaultPixel
  else getPixelNode x y q.root q.res

/-- The inner j-loop of Quadtree::transform: write the pixel into the n cells
(x, y), (x, y+1), ..., (x, y+n-1). -/
def writeInner (img : PNG) (x y : Int) (p : RGBAPixel) : Nat → PNG
  | 0 => img
  | j + 1 => setPixelAt (writeInner img x y p j) x (y + (j : Int)) p

/-- The outer i-loop of Quadtree::transform: for each of the m columns
x, ..., x+m-1 run the inner loop over n rows starting at y. -/
def writeBlockLoop (img : PNG) (x y : Int) (p : RGBAPixel) (n : Nat) : Nat → PNG
  | 0 => img
  | i + 1 => writeInner (writeBlockLoop img x y p n i) (x + (i : Int)) y p n

/-- Quadtree::transform (quadtree.cpp lines 225-242): a leaf writes its
element into every cell of its resolution-by-resolution block; an internal
node recurses into the four sub-quadrants.  On null: unreachable (C++ would
dereference NULL); the image is returned unchanged. -/
def transform : PNG → Int → Int → Int → QuadtreeNode → PNG
  | img, _, _, _, .null => img
  | img, resolution, x, y, node@(.mk element nwChild neChild swChild seChild) =>
    if !hasChildren node then
      writeBlockLoop img x y element resolution.toNat resolution.toNat
    else
      let childResolution := resolution / 2
      let i1 := transform img childResolution x y nwChild
      let i2 := transform i1 childResolution (x + childResolution) y neChild
      let i3 := transform i2 childResolution x (y + childResolution) swChild
      transform i3 childResolution (x + childResolution) (y + childResolution) seChild

/-- Quadtree::decompress (quadtree.cpp lines 208-214): default PNG for an
empty tree, otherwise transform a fresh res-by-res image.  The pixels of a
freshly constructed PNG(res, res) are modelled as defaultPixel (png.h is not
under src/); a well-formed tree overwrites every cell of the res-by-res
region, so the initial value is unobservable there. -/
def decompress (q : Quadtree) : PNG :=
  match q.root with
  | .null => defaultPNG
  | root => transform ⟨q.res, q.res, fun _ _ => defaultPixel⟩ q.res 0 0 root

/-- Quadtree::clockwiseRotate private helper (quadtree.cpp lines 256-268):
cycle the four child pointers (nw <- sw, sw <- se, se <- ne, ne <- old nw),
then rotate each (repositioned) child subtree.  On null: unreachable (C++
would dereference NULL). -/
def clockwiseRotateNode : QuadtreeNode → QuadtreeNode
  | .null => .null
  | node@(.mk element nwChild neChild swChild seChild) =>
    if hasChildren node then
      .mk element (clockwiseRotateNode swChild) (clockwiseRotateNode nwChild)
        (clockwiseRotateNode seChild) (clockwiseRotateNode neChild)
    else node

/-- Quadtree::clockwiseRotate public interface (quadtree.cpp lines 249-253). -/
def clockwiseRotate (q : Quadtree) : Quadtree :=
  match q.root with
  | .null => q
  | root => ⟨clockwiseRotateNode root, q.res⟩

/-- Quadtree::square. -/
def square (n : Int) : Int := n * n

/-- Quadtree::isPrunable (quadtree.cpp lines 324-329): the squared color
distance over the red, green and blue channels (uint8_t values promoted to
int before subtracting) is at most the tolerance. -/
def isPrunable (tolerance : Int) (avgPixel nodePixel : RGBAPixel) : Bool :=
  decide (square ((avgPixel.red : Int) - (nodePixel.red : Int)) +
          square ((avgPixel.green : Int) - (nodePixel.green : Int)) +
          square ((avgPixel.blue : Int) - (nodePixel.blue : Int)) ≤ tolerance)

/-- Quadtree::isChildrenPrunable (quadtree.cpp lines 310-321): every leaf of
the subtree under node is within tolerance of rootNode's element.  On null:
unreachable (C++ would dereference NULL). -/
def isChildrenPrunable (tolerance : Int) (rootNode : QuadtreeNode) : QuadtreeNode → Bool
  | .null => true
  | node@(.mk element nwChild neChild swChild seChild) =>
    if !hasChildren node then isPrunable tolerance rootNode.element element
    else
      isChildrenPrunable tolerance rootNode nwChild &&
      isChildrenPrunable tolerance rootNode neChild &&
      isChildrenPrunable tolerance rootNode swChild &&
      isChildrenPrunable tolerance rootNode seChild

/-- Quadtree::pruneChildren (quadtree.cpp lines 337-342): delete all four
child subtrees, leaving the node a leaf with its element unchanged. -/
def pruneChildren : QuadtreeNode → QuadtreeNode
  | .null => .null
  | .mk element _ _ _ _ => .mk element .null .null .null .null

/-- Quadtree::prune private helper (quadtree.cpp lines 288-301): if the whole
subtree is within tolerance of this node's element, delete the children;
otherwise recurse into each child. -/
def pruneNode (tolerance : Int) : QuadtreeNode → QuadtreeNode
  | .null => .null
  | node@(.mk element nwChild neChild swChild seChild) =>
    if !hasChildren node then node
    else if isChildrenPrunable tolerance node node then pruneChildren node
    else
      .mk element (pruneNode tolerance nwChild) (pruneNode tolerance neChild)
        (pruneNode tolerance swChild) (pruneNode tolerance seChild)

/-- Quadtree::prune public interface (quadtree.cpp lines 280-285). -/
def prune (q : Quadtree) (tolerance : Int) : Quadtree :=
  match q.root with
  | .null => q
  | root => ⟨pruneNode tolerance root, q.res⟩

/-- Quadtree::pruneSize private helper (quadtree.cpp lines 360-373): the leaf
count the subtree would have after pruning with the given tolerance.  On
null: unreachable (C++ would dereference NULL). -/
def pruneSizeNode (tolerance : Int) : QuadtreeNode → Int
  | .null => 1
  | node@(.mk _ nwChild neChild swChild seChild) =>
    if !hasChildren node then 1
    else if isChildrenPrunable tolerance node node then 1
    else
      pruneSizeNode tolerance nwChild + pruneSizeNode tolerance neChild +
      pruneSizeNode tolerance swChild + pruneSizeNode tolerance seChild

/-- Quadtree::pruneSize public interface (quadtree.cpp lines 353-357). -/
def pruneSize (q : Quadtree) (tolerance : Int) : Int :=
  match q.root with
  | .null => 0
  | root => pruneSizeNode tolerance root

/-- Quadtree::searchTolerance (quadtree.cpp lines 395-407), with an explicit
recursion budget: the C++ recursion has no structural termination measure (it
does not terminate on every input, see the divergence theorems below), so the
embedding counts recursive calls; the value none means the C++ has not
returned within the given number of calls, and a result that is none for
every budget is a non-terminating C++ computation. -/
def searchToleranceFuel (q : Quadtree) (numLeaves : Int) : Int → Int → Nat → Option Int
  | _, _, 0 => none
  | minTolerance, maxTolerance, fuel + 1 =>
    let tryTolerance := (minTolerance + maxTolerance) / 2
    let numLeavesAfterTry := q.pruneSize tryTolerance
    if numLeavesAfterTry ≤ numLeaves then
      if q.pruneSize (tryTolerance - 1) > numLeaves then some tryTolerance
      else searchToleranceFuel q numLeaves minTolerance tryTolerance fuel
    else searchToleranceFuel q numLeaves tryTolerance maxTolerance fuel

/-- Quadtree::idealPrune (quadtree.cpp lines 381-385), with the recursion
budget of searchToleranceFuel threaded through. -/
def idealPruneFuel (q : Quadtree) (numLeaves : Int) (fuel : Nat) : Option Int :=
  match q.root with
  | .null => some 0
  | _ => searchToleranceFuel q numLeaves MIN_TOLERANCE MAX_TOLERANCE fuel

/-- Quadtree::copyQuadtree node helper (quadtree.cpp lines 94-102): deep copy
of a subtree. -/
def copyQuadtreeNode : QuadtreeNode → QuadtreeNode
  | .null => .null
  | .mk element nwChild neChild swChild seChild =>
    .mk element (copyQuadtreeNode nwChild) (copyQuadtreeNode neChild)
      (copyQuadtreeNode swChild) (copyQuadtreeNode seChild)

/-- Quadtree::copyQuadtree (quadtree.cpp lines 87-91), the common helper of
the copy constructor and operator=: the result has other's resolution and a
deep copy of other's nodes. -/
def copyQuadtree (other : Quadtree) : Quadtree :=
  ⟨copyQuadtreeNode other.root, other.res⟩

end Quadtree

/-- The number of non-NULL children of a node (0 for the NULL pointer). -/
def childCount : QuadtreeNode → Nat
  | .null => 0
  | .mk _ nwChild neChild swChild seChild =>
    (if nwChild.isNull then 0 else 1) + (if neChild.isNull then 0 else 1) +
    (if swChild.isNull then 0 else 1) + (if seChild.isNull then 0 else 1)

/-- The structural invariant of the spec: every node of the subtree has
exactly zero or exactly four children. -/
def wellFormed : QuadtreeNode → Bool
  | .null => true
  | node@(.mk _ nwChild neChild swChild seChild) =>
    (childCount node == 0 || childCount node == 4) &&
    wellFormed nwChild && wellFormed neChild && wellFormed swChild && wellFormed seChild

/-- The number of actual leaves of a subtree: a node without children counts
one.  The NULL pointer holds no leaf; the value 1 there keeps the equations
uniform and is never reached from a well-formed node (whose children are
either all NULL under a leaf, which recursion does not enter, or all
non-NULL). -/
def countLeavesNode : QuadtreeNode → Int
  | .null => 1
  | node@(.mk _ nwChild neChild swChild seChild) =>
    if !Quadtree.hasChildren node then 1
    else
      countLeavesNode nwChild + countLeavesNode neChild +
      countLeavesNode swChild + countLeavesNode seChild

/-- The number of leaves of a whole tree; an empty tree has none. -/
def Quadtree.countLeaves (q : Quadtree) : Int :=
  match q.root with
  | .null => 0
  | root => countLeavesNode root

/-- The tree states reachable through the public operations: the default
constructor, buildTree at a power-of-two resolution (its documented
precondition), prune, clockwiseRotate, and copy construction / assignment. -/
inductive Reachable : Quadtree → Prop where
  | empty : Reachable Quadtree.emptyTree
  | build (source : PNG) (k : Nat) : Reachable (Quadtree.buildTree source (2 ^ k))
  | pruneStep (tolerance : Int) (q : Quadtree) : Reachable q → Reachable (q.prune tolerance)
  | rotateStep (q : Quadtree) : Reachable q → Reachable q.clockwiseRotate
  | copyStep (q : Quadtree) : Reachable q → Reachable (Quadtree.copyQuadtree q)

/-! ## Concrete inputs used by the evaluation theorems and witnesses -/

/-- A concrete 4-by-4 pixel source whose pixels are pairwise distinct inside
the upper-left 4-by-4 region: the red channel is the x coordinate and the
green channel is the y coordinate. -/
def srcQ : PNG := ⟨4, 4, fun x y => ⟨x.toNat % 256, y.toNat % 256, 0, 0⟩⟩

/-- A concrete 1-by-1 pixel source. -/
def srcOne : PNG := ⟨1, 1, fun _ _ => ⟨7, 7, 7, 7⟩⟩

/-! ## Claim C9: defined fallbacks instead of errors -/

/-- Claim C9: on the empty tree or for out-of-range coordinates, getPixel
returns the default-constructed color; on the empty tree, decompress returns
the default grid, pruneSize returns 0 for every tolerance, and idealPrune
returns the minimum tolerance 0 for every target (and every recursion
budget); none of these cases fails. -/
theorem defined_fallbacks_on_empty_and_out_of_range :
    (∀ x y : Int, Quadtree.emptyTree.getPixel x y = defaultPixel) ∧
    (∀ (q : Quadtree) (x y : Int), q.outOfBound x y = true → q.getPixel x y = defaultPixel) ∧
    Quadtree.emptyTree.decompress = defaultPNG ∧
    (∀ t : Int, Quadtree.emptyTree.pruneSize t = 0) ∧
    (∀ (n : Int) (fuel : Nat), Quadtree.emptyTree.idealPruneFuel n fuel = some 0) := by
  refine ⟨fun x y => ?_, fun q x y h => ?_, rfl, fun t => rfl, fun n fuel => rfl⟩
  · simp [Quadtree.getPixel, Quadtree.emptyTree, QuadtreeNode.isNull]
  · simp [Quadtree.getPixel, h]

/-- Witness for claim C9: the out-of-range conjunct evaluated at the concrete
coordinate (99, 5) of a concrete 4-by-4 tree. -/
theorem defined_fallbacks_on_empty_and_out_of_range_witness :
    (Quadtree.buildTree srcQ 4).getPixel 99 5 = defaultPixel :=
  defined_fallbacks_on_empty_and_out_of_range.2.1 (Quadtree.buildTree srcQ 4) 99 5 (by decide)

/-! ## Claim C1: getPixel versus the decompressed image -/

/-- Claim C1 (code bug): on the unpruned 4-by-4 tree built from srcQ, the
public getPixel at (2, 0) returns the color of source pixel (3, 0) rather
than the color of pixel (2, 0) that decompress produces at (2, 0): the
quadrant descent (quadtree.cpp lines 177-191) compares the absolute
coordinates against the halved resolution without translating them into the
chosen child's frame, so it does not return the color of the deepest
surviving node whose region covers (x, y). -/
theorem getPixel_misses_target_pixel :
    (Quadtree.buildTree srcQ 4).getPixel 2 0 = srcQ.pixelAt 3 0 ∧
    ((Quadtree.buildTree srcQ 4).decompress).pixelAt 2 0 = srcQ.pixelAt 2 0 ∧
    srcQ.pixelAt 3 0 ≠ srcQ.pixelAt 2 0 := by
  refine ⟨by decide, by decide, by decide⟩

/-! ## Claim C10: build reads only the target region -/

/-- buildTreeNode only reads source pixels inside the region of side
resolution at (x, y): two sources that agree there build identical subtrees. -/
theorem buildTreeNode_congr (src1 src2 : PNG) :
    ∀ (fuel : Nat) (resolution x y : Int), 1 ≤ resolution →
    (∀ a b : Int, x ≤ a → a < x + resolution → y ≤ b → b < y + resolution →
      src1.pixelAt a b = src2.pixelAt a b) →
    Quadtree.buildTreeNode src1 fuel resolution x y =
      Quadtree.buildTreeNode src2 fuel resolution x y := by
  intro fuel
  induction fuel with
  | zero =>
    intro resolution x y hres hagree
    simp only [Quadtree.buildTreeNode]
    rw [hagree x y le_rfl (by omega) le_rfl (by omega)]
  | succ fuel ih =>
    intro resolution x y hres hagree
    simp only [Quadtree.buildTreeNode]
    by_cases hsmall : resolution ≤ 1
    · rw [if_pos hsmall, if_pos hsmall,
        hagree x y le_rfl (by omega) le_rfl (by omega)]
    · rw [if_neg hsmall, if_neg hsmall]
      have hhalf : 1 ≤ resolution / 2 := by omega
      have hsum : resolution / 2 + resolution / 2 ≤ resolution := by omega
      have hnw := ih (resolution / 2) x y hhalf
        (fun a b h1 h2 h3 h4 => hagree a b h1 (by omega) h3 (by omega))
      have hne := ih (resolution / 2) (x + resolution / 2) y hhalf
        (fun a b h1 h2 h3 h4 => hagree a b (by omega) (by omega) h3 (by omega))
      have hsw := ih (resolution / 2) x (y + resolution / 2) hhalf
        (fun a b h1 h2 h3 h4 => hagree a b h1 (by omega) (by omega) (by omega))
      have hse := ih (resolution / 2) (x + resolution / 2) (y + resolution / 2) hhalf
        (fun a b h1 h2 h3 h4 => hagree a b (by omega) (by omega) (by omega) (by omega))
      rw [hnw, hne, hsw, hse]

/-- Claim C10: for every power-of-two resolution, two pixel sources that agree
on every pixel of the upper-left region of that side produce identical trees;
pixels outside the region never influence the result. -/
theorem buildTree_reads_only_target_region (k : Nat) (src1 src2 : PNG)
    (hagree : ∀ a b : Int, 0 ≤ a → a < 2 ^ k → 0 ≤ b → b < 2 ^ k →
      src1.pixelAt a b = src2.pixelAt a b) :
    Quadtree.buildTree src1 (2 ^ k) = Quadtree.buildTree src2 (2 ^ k) := by
  have hpos : (0 : Int) < 2 ^ k := pow_pos (by norm_num) k
  unfold Quadtree.buildTree
  rw [buildTreeNode_congr src1 src2 ((2 ^ k : Int)).toNat (2 ^ k) 0 0 (by omega)
    (fun a b h1 h2 h3 h4 => hagree a b h1 (by omega) h3 (by omega))]

/-- A source that differs from srcQ at (5, 5), outside the upper-left
2-by-2 region. -/
def srcQFar : PNG :=
  ⟨4, 4, fun x y => if x = 5 ∧ y = 5 then ⟨1, 2, 3, 4⟩ else ⟨x.toNat % 256, y.toNat % 256, 0, 0⟩⟩

/-- Witness for claim C10: srcQ and srcQFar agree on the upper-left 2-by-2
region (they differ only at (5, 5)), so building at resolution 2 gives
identical trees. -/
theorem buildTree_reads_only_target_region_witness :
    Quadtree.buildTree srcQ (2 ^ 1) = Quadtree.buildTree srcQFar (2 ^ 1) :=
  buildTree_reads_only_target_region 1 srcQ srcQFar
    (fun a b h1 h2 h3 h4 => by
      simp only [srcQ, srcQFar]
      rw [if_neg (by omega)])

/-! ## Claim C5: pruneSize is monotonically non-increasing in the tolerance -/

/-- isPrunable is monotone in the tolerance. -/
theorem isPrunable_mono {t1 t2 : Int} (h : t1 ≤ t2) (a b : RGBAPixel)
    (hp : Quadtree.isPrunable t1 a b = true) : Quadtree.isPrunable t2 a b = true := by
  simp only [Quadtree.isPrunable, decide_eq_true_eq] at hp ⊢
  omega

/-- isChildrenPrunable is monotone in the tolerance. -/
theorem isChildrenPrunable_mono {t1 t2 : Int} (h : t1 ≤ t2) (rootNode : QuadtreeNode) :
    ∀ node : QuadtreeNode, Quadtree.isChildrenPrunable t1 rootNode node = true →
      Quadtree.isChildrenPrunable t2 rootNode node = true := by
  intro node
  induction node with
  | null => intro; rfl
  | mk e nw ne sw se ihnw ihne ihsw ihse =>
    simp only [Quadtree.isChildrenPrunable]
    by_cases hc : (!Quadtree.hasChildren (.mk e nw ne sw se)) = true
    · rw [if_pos hc, if_pos hc]
      exact isPrunable_mono h rootNode.element e
    · rw [if_neg hc, if_neg hc]
      simp only [Bool.and_eq_true]
      exact fun hall => ⟨⟨⟨ihnw hall.1.1.1, ihne hall.1.1.2⟩, ihsw hall.1.2⟩, ihse hall.2⟩

/-- Every subtree would keep at least one leaf after pruning. -/
theorem one_le_pruneSizeNode (t : Int) : ∀ node : QuadtreeNode, 1 ≤ Quadtree.pruneSizeNode t node := by
  intro node
  induction node with
  | null => simp [Quadtree.pruneSizeNode]
  | mk e nw ne sw se ihnw ihne ihsw ihse =>
    simp only [Quadtree.pruneSizeNode]
    split
    · omega
    · split
      · omega
      · omega

/-- The private pruneSize helper is antitone in the tolerance. -/
theorem pruneSizeNode_mono {t1 t2 : Int} (h : t1 ≤ t2) :
    ∀ node : QuadtreeNode, Quadtree.pruneSizeNode t2 node ≤ Quadtree.pruneSizeNode t1 node := by
  intro node
  induction node with
  | null => simp [Quadtree.pruneSizeNode]
  | mk e nw ne sw se ihnw ihne ihsw ihse =>
    simp only [Quadtree.pruneSizeNode]
    by_cases hc : (!Quadtree.hasChildren (.mk e nw ne sw se)) = true
    · rw [if_pos hc, if_pos hc]
    · rw [if_neg hc, if_neg hc]
      by_cases hp1 : Quadtree.isChildrenPrunable t1 (.mk e nw ne sw se) (.mk e nw ne sw se) = true
      · rw [if_pos hp1, if_pos (isChildrenPrunable_mono h _ _ hp1)]
      · rw [if_neg hp1]
        by_cases hp2 : Quadtree.isChildrenPrunable t2 (.mk e nw ne sw se) (.mk e nw ne sw se) = true
        · rw [if_pos hp2]
          have h1 := one_le_pruneSizeNode t1 nw
          have h2 := one_le_pruneSizeNode t1 ne
          have h3 := one_le_pruneSizeNode t1 sw
          have h4 := one_le_pruneSizeNode t1 se
          omega
        · rw [if_neg hp2]
          omega

/-- Claim C5: for every tree and all tolerances t1 <= t2, pruning with the
larger tolerance would never leave more leaves: pruneSize(t2) <= pruneSize(t1). -/
theorem pruneSize_monotone (q : Quadtree) (t1 t2 : Int) (h : t1 ≤ t2) :
    q.pruneSize t2 ≤ q.pruneSize t1 := by
  unfold Quadtree.pruneSize
  cases q.root with
  | null => exact le_rfl
  | mk e nw ne sw se => exact pruneSizeNode_mono h _

/-- Witness for claim C5: the monotonicity theorem applied to the concrete
4-by-4 tree with tolerances 0 <= 10. -/
theorem pruneSize_monotone_witness :
    (Quadtree.buildTree srcQ 4).pruneSize 10 ≤ (Quadtree.buildTree srcQ 4).pruneSize 0 :=
  pruneSize_monotone (Quadtree.buildTree srcQ 4) 0 10 (by decide)

/-! ## Claim C6: prune agrees with pruneSize -/

/-- pruneNode maps NULL to NULL and a node to a node. -/
theorem pruneNode_isNull (t : Int) (n : QuadtreeNode) :
    (Quadtree.pruneNode t n).isNull = n.isNull := by
  cases n with
  | null => rfl
  | mk e nw ne sw se =>
    simp only [Quadtree.pruneNode]
    split
    · rfl
    · split <;> rfl

/-- Unpacking the well-formedness of a node: all four children are
well-formed, and they are either all NULL or all non-NULL. -/
theorem wellFormed_mk_elim {e : RGBAPixel} {nw ne sw se : QuadtreeNode}
    (h : wellFormed (.mk e nw ne sw se) = true) :
    wellFormed nw = true ∧ wellFormed ne = true ∧ wellFormed sw = true ∧
    wellFormed se = true ∧
    ((nw.isNull = true ∧ ne.isNull = true ∧ sw.isNull = true ∧ se.isNull = true) ∨
     (nw.isNull = false ∧ ne.isNull = false ∧ sw.isNull = false ∧ se.isNull = false)) := by
  simp only [wellFormed, childCount, Bool.and_eq_true, Bool.or_eq_true, beq_iff_eq] at h
  obtain ⟨⟨⟨⟨hcc, h1⟩, h2⟩, h3⟩, h4⟩ := h
  refine ⟨h1, h2, h3, h4, ?_⟩
  cases hnw : nw.isNull <;> cases hne : ne.isNull <;> cases hsw : sw.isNull <;>
    cases hse : se.isNull <;> simp_all

/-- For a well-formed subtree, the leaf count after pruning equals the leaf
count that pruneSize predicts. -/
theorem countLeavesNode_pruneNode (t : Int) :
    ∀ node : QuadtreeNode, wellFormed node = true →
      countLeavesNode (Quadtree.pruneNode t node) = Quadtree.pruneSizeNode t node := by
  intro node
  induction node with
  | null => intro _; rfl
  | mk e nw ne sw se ihnw ihne ihsw ihse =>
    intro hwf
    obtain ⟨hwnw, hwne, hwsw, hwse, hnulls⟩ := wellFormed_mk_elim hwf
    simp only [Quadtree.pruneNode, Quadtree.pruneSizeNode]
    by_cases hc : (!Quadtree.hasChildren (.mk e nw ne sw se)) = true
    · rw [if_pos hc, if_pos hc]
      simp only [countLeavesNode]
      rw [if_pos hc]
    · rw [if_neg hc, if_neg hc]
      by_cases hp : Quadtree.isChildrenPrunable t (.mk e nw ne sw se) (.mk e nw ne sw se) = true
      · rw [if_pos hp, if_pos hp]
        simp [countLeavesNode, Quadtree.pruneChildren, Quadtree.hasChildren,
          QuadtreeNode.isNull]
      · rw [if_neg hp, if_neg hp]
        have hnwnn : nw.isNull = false := by
          rcases hnulls with ⟨h1, _, _, _⟩ | ⟨h1, _, _, _⟩
          · exfalso
            apply hc
            simp [Quadtree.hasChildren, h1]
          · exact h1
        simp only [countLeavesNode]
        rw [if_neg (by simp [Quadtree.hasChildren, pruneNode_isNull, hnwnn])]
        rw [ihnw hwnw, ihne hwne, ihsw hwsw, ihse hwse]

/-- Claim C6: for every well-formed tree and every tolerance, the number of
leaves after prune(t) equals pruneSize(t) computed on the tree before
pruning (each node's prunability is judged against the original tree). -/
theorem prune_leaf_count_agrees_with_pruneSize (q : Quadtree) (t : Int)
    (hwf : wellFormed q.root = true) :
    (q.prune t).countLeaves = q.pruneSize t := by
  obtain ⟨root, res⟩ := q
  cases root with
  | null => rfl
  | mk e nw ne sw se =>
    show Quadtree.countLeaves ⟨Quadtree.pruneNode t (.mk e nw ne sw se), res⟩ =
      Quadtree.pruneSizeNode t (.mk e nw ne sw se)
    have hnn := pruneNode_isNull t (QuadtreeNode.mk e nw ne sw se)
    cases hpn : Quadtree.pruneNode t (.mk e nw ne sw se) with
    | null =>
      rw [hpn] at hnn
      simp [QuadtreeNode.isNull] at hnn
    | mk e2 a b c d =>
      show countLeavesNode (.mk e2 a b c d) = _
      rw [← hpn]
      exact countLeavesNode_pruneNode t _ hwf

/-- Witness for claim C6: the agreement theorem applied to the concrete
2-by-2 tree with tolerance 0. -/
theorem prune_leaf_count_agrees_with_pruneSize_witness :
    ((Quadtree.buildTree srcQ 2).prune 0).countLeaves =
      (Quadtree.buildTree srcQ 2).pruneSize 0 :=
  prune_leaf_count_agrees_with_pruneSize (Quadtree.buildTree srcQ 2) 0 (by decide)

/-! ## Claim C7: every reachable tree has only 0-or-4-children nodes -/

/-- buildTreeNode always allocates a node (never returns NULL). -/
theorem buildTreeNode_isNull (source : PNG) (fuel : Nat) (resolution x y : Int) :
    (Quadtree.buildTreeNode source fuel resolution x y).isNull = false := by
  cases fuel with
  | zero => rfl
  | succ fuel =>
    simp only [Quadtree.buildTreeNode]
    split <;> rfl

/-- Every tree built by the buildTree recursion is well-formed. -/
theorem wellFormed_buildTreeNode (source : PNG) :
    ∀ (fuel : Nat) (resolution x y : Int),
      wellFormed (Quadtree.buildTreeNode source fuel resolution x y) = true := by
  intro fuel
  induction fuel with
  | zero => intro resolution x y; rfl
  | succ fuel ih =>
    intro resolution x y
    simp only [Quadtree.buildTreeNode]
    split
    · rfl
    · simp only [wellFormed, childCount, buildTreeNode_isNull, Bool.and_eq_true,
        Bool.or_eq_true, beq_iff_eq, if_false, Bool.false_eq_true]
      exact ⟨⟨⟨⟨by norm_num, ih _ _ _⟩, ih _ _ _⟩, ih _ _ _⟩, ih _ _ _⟩

/-- Pruning preserves well-formedness. -/
theorem wellFormed_pruneNode (t : Int) :
    ∀ node : QuadtreeNode, wellFormed node = true →
      wellFormed (Quadtree.pruneNode t node) = true := by
  intro node
  induction node with
  | null => intro _; rfl
  | mk e nw ne sw se ihnw ihne ihsw ihse =>
    intro hwf
    obtain ⟨hwnw, hwne, hwsw, hwse, hnulls⟩ := wellFormed_mk_elim hwf
    simp only [Quadtree.pruneNode]
    by_cases hc : (!Quadtree.hasChildren (.mk e nw ne sw se)) = true
    · rw [if_pos hc]
      exact hwf
    · rw [if_neg hc]
      by_cases hp : Quadtree.isChildrenPrunable t (.mk e nw ne sw se) (.mk e nw ne sw se) = true
      · rw [if_pos hp]
        rfl
      · rw [if_neg hp]
        have hall : nw.isNull = false ∧ ne.isNull = false ∧ sw.isNull = false ∧
            se.isNull = false := by
          rcases hnulls with ⟨h1, _, _, _⟩ | h
          · exfalso
            apply hc
            simp [Quadtree.hasChildren, h1]
          · exact h
        simp only [wellFormed, childCount, pruneNode_isNull, hall.1, hall.2.1,
          hall.2.2.1, hall.2.2.2, Bool.and_eq_true, Bool.or_eq_true, beq_iff_eq,
          if_false, Bool.false_eq_true]
        exact ⟨⟨⟨⟨by norm_num, ihnw hwnw⟩, ihne hwne⟩, ihsw hwsw⟩, ihse hwse⟩

/-- Rotation maps NULL to NULL and a node to a node. -/
theorem clockwiseRotateNode_isNull (n : QuadtreeNode) :
    (Quadtree.clockwiseRotateNode n).isNull = n.isNull := by
  cases n with
  | null => rfl
  | mk e nw ne sw se =>
    simp only [Quadtree.clockwiseRotateNode]
    split <;> rfl

/-- Rotation preserves well-formedness. -/
theorem wellFormed_clockwiseRotateNode :
    ∀ node : QuadtreeNode, wellFormed node = true →
      wellFormed (Quadtree.clockwiseRotateNode node) = true := by
  intro node
  induction node with
  | null => intro _; rfl
  | mk e nw ne sw se ihnw ihne ihsw ihse =>
    intro hwf
    obtain ⟨hwnw, hwne, hwsw, hwse, hnulls⟩ := wellFormed_mk_elim hwf
    simp only [Quadtree.clockwiseRotateNode]
    by_cases hc : Quadtree.hasChildren (.mk e nw ne sw se) = true
    · rw [if_pos hc]
      have hall : nw.isNull = false ∧ ne.isNull = false ∧ sw.isNull = false ∧
          se.isNull = false := by
        rcases hnulls with ⟨h1, _, _, _⟩ | h
        · exfalso
          simp [Quadtree.hasChildren, h1] at hc
        · exact h
      simp only [wellFormed, childCount, clockwiseRotateNode_isNull, hall.1, hall.2.1,
        hall.2.2.1, hall.2.2.2, Bool.and_eq_true, Bool.or_eq_true, beq_iff_eq,
        if_false, Bool.false_eq_true]
      exact ⟨⟨⟨⟨by norm_num, ihsw hwsw⟩, ihnw hwnw⟩, ihse hwse⟩, ihne hwne⟩
    · rw [if_neg hc]
      exact hwf

/-- The deep copy reproduces the tree exactly. -/
theorem copyQuadtreeNode_eq : ∀ n : QuadtreeNode, Quadtree.copyQuadtreeNode n = n := by
  intro n
  induction n with
  | null => rfl
  | mk e nw ne sw se ihnw ihne ihsw ihse =>
    simp [Quadtree.copyQuadtreeNode, ihnw, ihne, ihsw, ihse]

/-- Claim C7: in every tree state reachable through the public operations
(default construction, buildTree at a power-of-two resolution, prune,
clockwiseRotate and copy/assignment), every node has exactly zero or exactly
four children; each operation preserves this invariant. -/
theorem reachable_zero_or_four_children (q : Quadtree) (h : Reachable q) :
    wellFormed q.root = true := by
  induction h with
  | empty => rfl
  | build source k => exact wellFormed_buildTreeNode source _ _ 0 0
  | pruneStep t q hq ih =>
    obtain ⟨root, res⟩ := q
    cases root with
    | null => exact ih
    | mk e nw ne sw se => exact wellFormed_pruneNode t _ ih
  | rotateStep q hq ih =>
    obtain ⟨root, res⟩ := q
    cases root with
    | null => exact ih
    | mk e nw ne sw se => exact wellFormed_clockwiseRotateNode _ ih
  | copyStep q hq ih =>
    show wellFormed (Quadtree.copyQuadtreeNode q.root) = true
    rw [copyQuadtreeNode_eq]
    exact ih

/-- Witness for claim C7: the invariant evaluated on the concrete reachable
state built from srcQ at resolution 4 and then pruned with tolerance 0. -/
theorem reachable_zero_or_four_children_witness :
    wellFormed ((Quadtree.buildTree srcQ (2 ^ 2)).prune 0).root = true :=
  reachable_zero_or_four_children ((Quadtree.buildTree srcQ (2 ^ 2)).prune 0)
    (Reachable.pruneStep 0 (Quadtree.buildTree srcQ (2 ^ 2)) (Reachable.build srcQ 2))

/-! ## Claim C8: four clockwise rotations restore the tree -/

/-- Unfolding rotation at a node that has children. -/
theorem clockwiseRotateNode_mk (e : RGBAPixel) (nw ne sw se : QuadtreeNode)
    (h : nw.isNull = false) :
    Quadtree.clockwiseRotateNode (.mk e nw ne sw se) =
      .mk e (Quadtree.clockwiseRotateNode sw) (Quadtree.clockwiseRotateNode nw)
        (Quadtree.clockwiseRotateNode se) (Quadtree.clockwiseRotateNode ne) := by
  simp only [Quadtree.clockwiseRotateNode]
  rw [if_pos]
  simp [Quadtree.hasChildren, h]

/-- Four clockwise rotations of a well-formed subtree give back the original
subtree: the child cycle nw -> ne -> se -> sw -> nw has order four and
recursion rotates every subtree the same number of times. -/
theorem clockwiseRotateNode_four :
    ∀ node : QuadtreeNode, wellFormed node = true →
      Quadtree.clockwiseRotateNode (Quadtree.clockwiseRotateNode
        (Quadtree.clockwiseRotateNode (Quadtree.clockwiseRotateNode node))) = node := by
  intro node
  induction node with
  | null => intro _; rfl
  | mk e nw ne sw se ihnw ihne ihsw ihse =>
    intro hwf
    obtain ⟨hwnw, hwne, hwsw, hwse, hnulls⟩ := wellFormed_mk_elim hwf
    by_cases hc : Quadtree.hasChildren (.mk e nw ne sw se) = true
    · have hall : nw.isNull = false ∧ ne.isNull = false ∧ sw.isNull = false ∧
          se.isNull = false := by
        rcases hnulls with ⟨h1, _, _, _⟩ | h
        · exfalso
          simp [Quadtree.hasChildren, h1] at hc
        · exact h
      rw [clockwiseRotateNode_mk e nw ne sw se hall.1,
        clockwiseRotateNode_mk e _ _ _ _
          (by rw [clockwiseRotateNode_isNull]; exact hall.2.2.1),
        clockwiseRotateNode_mk e _ _ _ _
          (by rw [clockwiseRotateNode_isNull, clockwiseRotateNode_isNull]; exact hall.2.2.2),
        clockwiseRotateNode_mk e _ _ _ _
          (by rw [clockwiseRotateNode_isNull, clockwiseRotateNode_isNull,
              clockwiseRotateNode_isNull]; exact hall.2.1)]
      rw [ihnw hwnw, ihne hwne, ihsw hwsw, ihse hwse]
    · have hrot : Quadtree.clockwiseRotateNode (.mk e nw ne sw se) = .mk e nw ne sw se := by
        simp only [Quadtree.clockwiseRotateNode]
        rw [if_neg hc]
      simp only [hrot]

/-- Four clockwise rotations of a well-formed tree give back the original
tree value. -/
theorem clockwiseRotate_four (q : Quadtree) (hwf : wellFormed q.root = true) :
    q.clockwiseRotate.clockwiseRotate.clockwiseRotate.clockwiseRotate = q := by
  obtain ⟨root, res⟩ := q
  cases root with
  | null => rfl
  | mk e nw ne sw se =>
    have hr : ∀ m : QuadtreeNode, m.isNull = false →
        Quadtree.clockwiseRotate ⟨m, res⟩ = ⟨Quadtree.clockwiseRotateNode m, res⟩ := by
      intro m hm
      cases m with
      | null => simp [QuadtreeNode.isNull] at hm
      | mk e2 a b c d => rfl
    rw [hr (.mk e nw ne sw se) rfl,
      hr (Quadtree.clockwiseRotateNode (.mk e nw ne sw se))
        (by rw [clockwiseRotateNode_isNull]; rfl),
      hr (Quadtree.clockwiseRotateNode (Quadtree.clockwiseRotateNode (.mk e nw ne sw se)))
        (by rw [clockwiseRotateNode_isNull, clockwiseRotateNode_isNull]; rfl),
      hr (Quadtree.clockwiseRotateNode (Quadtree.clockwiseRotateNode
          (Quadtree.clockwiseRotateNode (.mk e nw ne sw se))))
        (by rw [clockwiseRotateNode_isNull, clockwiseRotateNode_isNull,
          clockwiseRotateNode_isNull]; rfl)]
    rw [clockwiseRotateNode_four _ hwf]

/-- Claim C8: on a well-formed tree, four consecutive clockwiseRotate calls
restore the original pixel-query results at every coordinate. -/
theorem rotate_four_times_restores_getPixel (q : Quadtree) (x y : Int)
    (hwf : wellFormed q.root = true) :
    (q.clockwiseRotate.clockwiseRotate.clockwiseRotate.clockwiseRotate).getPixel x y =
      q.getPixel x y := by
  rw [clockwiseRotate_four q hwf]

/-- Witness for claim C8: the rotation identity evaluated at coordinate
(1, 0) of the concrete 2-by-2 tree. -/
theorem rotate_four_times_restores_getPixel_witness :
    ((Quadtree.buildTree srcQ 2).clockwiseRotate.clockwiseRotate.clockwiseRotate.clockwiseRotate).getPixel 1 0 =
      (Quadtree.buildTree srcQ 2).getPixel 1 0 :=
  rotate_four_times_restores_getPixel (Quadtree.buildTree srcQ 2) 1 0 (by decide)

/-! ## Claims C2 and C3: the tolerance search does not always return -/

/-- Every subtree holds at least one leaf. -/
theorem one_le_countLeavesNode : ∀ node : QuadtreeNode, 1 ≤ countLeavesNode node := by
  intro node
  induction node with
  | null => simp [countLeavesNode]
  | mk e nw ne sw se ihnw ihne ihsw ihse =>
    simp only [countLeavesNode]
    split
    · omega
    · omega

/-- Pruning can only reduce the leaf count: pruneSize is bounded by the
actual number of leaves, for every tolerance (including negative ones). -/
theorem pruneSizeNode_le_countLeavesNode (t : Int) :
    ∀ node : QuadtreeNode, Quadtree.pruneSizeNode t node ≤ countLeavesNode node := by
  intro node
  induction node with
  | null => simp [Quadtree.pruneSizeNode, countLeavesNode]
  | mk e nw ne sw se ihnw ihne ihsw ihse =>
    simp only [Quadtree.pruneSizeNode, countLeavesNode]
    by_cases hc : (!Quadtree.hasChildren (.mk e nw ne sw se)) = true
    · rw [if_pos hc, if_pos hc]
    · rw [if_neg hc, if_neg hc]
      split
      · have h1 := one_le_countLeavesNode nw
        have h2 := one_le_countLeavesNode ne
        have h3 := one_le_countLeavesNode sw
        have h4 := one_le_countLeavesNode se
        omega
      · omega

/-- pruneSize on a non-empty tree unfolds to the private helper. -/
theorem pruneSize_eq (q : Quadtree) (h : q.root.isNull = false) (t : Int) :
    q.pruneSize t = Quadtree.pruneSizeNode t q.root := by
  obtain ⟨root, res⟩ := q
  cases root with
  | null => simp [QuadtreeNode.isNull] at h
  | mk e nw ne sw se => rfl

/-- idealPrune on a non-empty tree unfolds to the binary search over the
full tolerance range. -/
theorem idealPruneFuel_eq (q : Quadtree) (h : q.root.isNull = false) (n : Int) (fuel : Nat) :
    q.idealPruneFuel n fuel =
      Quadtree.searchToleranceFuel q n MIN_TOLERANCE MAX_TOLERANCE fuel := by
  obtain ⟨root, res⟩ := q
  cases root with
  | null => simp [QuadtreeNode.isNull] at h
  | mk e nw ne sw se => rfl

/-- When every pruneSize value is at most the target, searchTolerance never
returns: from the state (0, hi) it always takes the branch that halves the
upper bound without moving the lower bound, reaching the absorbing state
(0, 0), so no recursion budget suffices. -/
theorem searchTolerance_stuck (q : Quadtree) (n : Int)
    (hbound : ∀ t : Int, q.pruneSize t ≤ n) :
    ∀ (fuel : Nat) (hi : Int), 0 ≤ hi →
      Quadtree.searchToleranceFuel q n 0 hi fuel = none := by
  intro fuel
  induction fuel with
  | zero => intro hi _; rfl
  | succ fuel ih =>
    intro hi hhi
    simp only [Quadtree.searchToleranceFuel]
    rw [if_pos (hbound _), if_neg (by have := hbound ((0 + hi) / 2 - 1); omega)]
    exact ih ((0 + hi) / 2) (by omega)

/-- Claim C3 (code bug): on the single-leaf tree built from the 1-by-1
source, idealPrune(1) does not terminate: for every recursion budget the
embedded search returns none.  The input satisfies the precondition
numLeaves >= 1, yet searchTolerance recurses forever because
pruneSize(t) <= 1 holds for every t, so the return test
pruneSize(tryTolerance - 1) > numLeaves never succeeds. -/
theorem searchTolerance_diverges_on_single_leaf_tree :
    ∀ fuel : Nat, (Quadtree.buildTree srcOne 1).idealPruneFuel 1 fuel = none := by
  intro fuel
  have hroot : (Quadtree.buildTree srcOne 1).root.isNull = false :=
    buildTreeNode_isNull srcOne _ 1 0 0
  have hbound : ∀ t : Int, (Quadtree.buildTree srcOne 1).pruneSize t ≤ 1 := by
    intro t
    rw [pruneSize_eq _ hroot]
    have h := pruneSizeNode_le_countLeavesNode t (Quadtree.buildTree srcOne 1).root
    have hc : countLeavesNode (Quadtree.buildTree srcOne 1).root = 1 := by decide
    omega
  rw [idealPruneFuel_eq _ hroot]
  exact searchTolerance_stuck _ 1 hbound fuel MAX_TOLERANCE (by decide)

/-- Claim C2 (code bug): idealPrune does not return the minimum tolerance on
every valid input, because it does not return at all whenever the target
leaf budget is at least the tree's leaf count: on the 2-by-2 tree (4
leaves) with numLeaves = 4, the minimum tolerance with
pruneSize(t) <= 4 is 0, but for every recursion budget the embedded
search returns none. -/
theorem idealPrune_no_return_when_target_reaches_leaf_count :
    ∀ fuel : Nat, (Quadtree.buildTree srcQ 2).idealPruneFuel 4 fuel = none := by
  intro fuel
  have hroot : (Quadtree.buildTree srcQ 2).root.isNull = false :=
    buildTreeNode_isNull srcQ _ 2 0 0
  have hbound : ∀ t : Int, (Quadtree.buildTree srcQ 2).pruneSize t ≤ 4 := by
    intro t
    rw [pruneSize_eq _ hroot]
    have h := pruneSizeNode_le_countLeavesNode t (Quadtree.buildTree srcQ 2).root
    have hc : countLeavesNode (Quadtree.buildTree srcQ 2).root = 4 := by decide
    omega
  rw [idealPruneFuel_eq _ hroot]
  exact searchTolerance_stuck _ 4 hbound fuel MAX_TOLERANCE (by decide)

/-! ## Claim C4: build then decompress reproduces the source region -/

/-- The inner write loop fills the column cells (x, y) .. (x, y+n-1). -/
theorem writeInner_pixelAt :
    ∀ (n : Nat) (img : PNG) (x y : Int) (p : RGBAPixel) (a b : Int),
      (Quadtree.writeInner img x y p n).pixelAt a b =
        if a = x ∧ y ≤ b ∧ b < y + (n : Int) then p else img.pixelAt a b := by
  intro n
  induction n with
  | zero =>
    intro img x y p a b
    simp only [Quadtree.writeInner]
    rw [if_neg (by omega)]
  | succ n ih =>
    intro img x y p a b
    simp only [Quadtree.writeInner, setPixelAt]
    rw [ih]
    split_ifs <;> first | rfl | omega

/-- The outer write loop fills the m-by-n block of cells at (x, y). -/
theorem writeBlockLoop_pixelAt :
    ∀ (m : Nat) (img : PNG) (x y : Int) (p : RGBAPixel) (n : Nat) (a b : Int),
      (Quadtree.writeBlockLoop img x y p n m).pixelAt a b =
        if x ≤ a ∧ a < x + (m : Int) ∧ y ≤ b ∧ b < y + (n : Int) then p
        else img.pixelAt a b := by
  intro m
  induction m with
  | zero =>
    intro img x y p n a b
    simp only [Quadtree.writeBlockLoop]
    rw [if_neg (by omega)]
  | succ m ih =>
    intro img x y p n a b
    simp only [Quadtree.writeBlockLoop]
    rw [writeInner_pixelAt, ih]
    split_ifs <;> first | rfl | omega

/-- Decompressing an unpruned subtree built at a power-of-two resolution
writes exactly the source pixels of its region and leaves every other cell
of the image unchanged. -/
theorem transform_buildTreeNode :
    ∀ (k : Nat) (fuel : Nat) (source img : PNG) (x y : Int), 2 ^ k ≤ fuel →
      ∀ a b : Int,
      (Quadtree.transform img ((2 : Int) ^ k) x y
          (Quadtree.buildTreeNode source fuel ((2 : Int) ^ k) x y)).pixelAt a b =
        if x ≤ a ∧ a < x + (2 : Int) ^ k ∧ y ≤ b ∧ b < y + (2 : Int) ^ k then
          source.pixelAt a b
        else img.pixelAt a b := by
  intro k
  induction k with
  | zero =>
    intro fuel source img x y hfuel a b
    simp only [pow_zero] at hfuel ⊢
    obtain ⟨fuel, rfl⟩ : ∃ f, fuel = f + 1 := ⟨fuel - 1, by omega⟩
    simp only [Quadtree.buildTreeNode]
    rw [if_pos (by norm_num)]
    simp only [Quadtree.transform]
    rw [if_pos (by simp [Quadtree.hasChildren, QuadtreeNode.isNull])]
    rw [writeBlockLoop_pixelAt]
    simp only [Int.toNat_one, Nat.cast_one]
    split_ifs with h1
    · have hax : a = x := by omega
      have hby : b = y := by omega
      rw [hax, hby]
    · rfl
  | succ k ih =>
    intro fuel source img x y hfuel a b
    have hone : 1 ≤ 2 ^ (k + 1) := Nat.one_le_two_pow
    obtain ⟨fuel, rfl⟩ : ∃ f, fuel = f + 1 := ⟨fuel - 1, by omega⟩
    have hfk : 2 ^ k ≤ fuel := by
      have h3 : 2 ^ (k + 1) = 2 * 2 ^ k := by ring
      have h2 : 1 ≤ 2 ^ k := Nat.one_le_two_pow
      rw [h3] at hfuel
      omega
    have hpos : (0 : Int) < (2 : Int) ^ k := pow_pos (by norm_num) k
    have hpow : (2 : Int) ^ (k + 1) = 2 * (2 : Int) ^ k := by ring
    rw [hpow]
    set half : Int := (2 : Int) ^ k with hhalf
    have hdiv : 2 * half / 2 = half := by omega
    simp only [Quadtree.buildTreeNode]
    rw [if_neg (by omega)]
    rw [hdiv]
    simp only [Quadtree.transform]
    rw [if_neg (by simp [Quadtree.hasChildren, buildTreeNode_isNull])]
    rw [hdiv]
    have ihs := fun (img2 : PNG) (x2 y2 : Int) => ih fuel source img2 x2 y2 hfk a b
    rw [ihs, ihs, ihs, ihs]
    split_ifs <;> first | rfl | omega

/-- decompress of a freshly built tree is the transform of a fresh image by
the built root. -/
theorem decompress_buildTree (source : PNG) (r : Int) :
    (Quadtree.buildTree source r).decompress =
      Quadtree.transform ⟨r, r, fun _ _ => defaultPixel⟩ r 0 0
        (Quadtree.buildTreeNode source r.toNat r 0 0) := by
  unfold Quadtree.decompress Quadtree.buildTree
  cases hbuilt : Quadtree.buildTreeNode source r.toNat r 0 0 with
  | null =>
    have h := buildTreeNode_isNull source r.toNat r 0 0
    rw [hbuilt] at h
    simp [QuadtreeNode.isNull] at h
  | mk e nw ne sw se => rfl

/-- Claim C4: for every pixel source and every power-of-two resolution R,
building a tree at resolution R and decompressing it, with no pruning in
between, reproduces the upper-left R-by-R region of the source
pixel-for-pixel. -/
theorem build_decompress_roundtrip (source : PNG) (k : Nat) (a b : Int)
    (ha0 : 0 ≤ a) (ha : a < (2 : Int) ^ k) (hb0 : 0 ≤ b) (hb : b < (2 : Int) ^ k) :
    ((Quadtree.buildTree source ((2 : Int) ^ k)).decompress).pixelAt a b =
      source.pixelAt a b := by
  rw [decompress_buildTree]
  have htn : ((2 : Int) ^ k).toNat = 2 ^ k := by
    have hcast : ((2 : Int) ^ k) = ((2 ^ k : Nat) : Int) := by push_cast; ring
    rw [hcast, Int.toNat_natCast]
  rw [htn]
  rw [transform_buildTreeNode k (2 ^ k) source _ 0 0 le_rfl a b]
  rw [if_pos ⟨ha0, by simpa using ha, hb0, by simpa using hb⟩]

/-- Witness for claim C4: the round-trip theorem evaluated at pixel (2, 1) of
the concrete 4-by-4 source. -/
theorem build_decompress_roundtrip_witness :
    ((Quadtree.buildTree srcQ ((2 : Int) ^ 2)).decompress).pixelAt 2 1 =
      srcQ.pixelAt 2 1 :=
  build_decompress_roundtrip srcQ 2 2 1 (by norm_num) (by norm_num) (by norm_num) (by norm_num)
